import Mathlib

/-!
Verification of the AAQT training script (src/train.py) against its
specification. The script's state and operations are shallowly embedded:
serialized library blobs (model / optimizer / scheduler state dicts) are
opaque tokens, the checkpoint file system is a map from paths to checkpoint
records, Python floats are modelled as rationals, and the training loop
(train.py:203-338) is a step function over an explicit loop state that also
records a trace of the events the claims talk about (backward passes,
optimizer steps, validation runs, checkpoint writes).
-/

namespace AAQT

/-- Opaque serialized model weights (a torch state_dict blob). -/
abbrev ModelSD := Nat

/-- Opaque serialized optimizer state (optimizer.state_dict()). -/
abbrev OptSD := Nat

/-- Opaque serialized scheduler state (scheduler.state_dict()). -/
abbrev SchedSD := Nat

/-- The argparse namespace of train.py (main, lines 341-411), restricted to the
fields read by the verified code paths. `test_best_acc` is the attribute that
main assigns dynamically at train.py:449; it defaults to 0 before that. -/
structure Args where
  name : String
  dataset : String
  output_dir : String
  train_batch_size : Nat
  eval_every : Nat
  num_steps : Nat
  gradient_accumulation_steps : Nat
  local_rank : Int
  img_size : Nat
  smoothing_value : Rat
  contr_loss : Bool
  focal_loss : Bool
  start_step : Nat
  test_best_acc : Rat
deriving DecidableEq, Repr

/-- A model object: either a bare VisionTransformer, or one wrapped by apex
DistributedDataParallel (train.py:230), in which case it has a `.module`
attribute holding the bare model whose weights are the same blob. -/
inductive TModel where
  | plain (sd : ModelSD)
  | ddp (sd : ModelSD)
deriving DecidableEq, Repr

/-- train.py:57, `model.module if hasattr(model, 'module') else model`. -/
def modelToSave : TModel → TModel
  | .plain sd => .plain sd
  | .ddp sd => .plain sd

/-- The state_dict of a model object. -/
def TModel.sd : TModel → ModelSD
  | .plain sd => sd
  | .ddp sd => sd

/-- train.py:74, `model.load_state_dict(...)`, modelled functionally. -/
def loadStateDict : TModel → ModelSD → TModel
  | .plain _, sd => .plain sd
  | .ddp _, sd => .ddp sd

/-- The record torch.save writes at train.py:59-66. -/
structure Checkpoint where
  model_state_dict : ModelSD
  optimizer_state_dict : OptSD
  scheduler_state_dict : SchedSD
  global_step : Nat
  test_best_acc : Rat
  args : Args
deriving DecidableEq, Repr

/-- The checkpoint file system: a map from file paths to checkpoint records. -/
abbrev FS := String → Option Checkpoint

/-- train.py:58 and 71,
`os.path.join(args.output_dir, "%s_checkpoint.bin" % args.name)`. -/
def checkpointPath (args : Args) : String :=
  args.output_dir ++ "/" ++ args.name ++ "_checkpoint.bin"

/-- train.py save_model (lines 56-67): unwrap the DDP `.module` wrapper when
present and torch.save the record to the checkpoint path. -/
def save_model (args : Args) (model : TModel) (optimizer : OptSD)
    (scheduler : SchedSD) (global_step : Nat) (test_best_acc : Rat)
    (fs : FS) : FS :=
  let model_to_save := modelToSave model
  let model_checkpoint := checkpointPath args
  fun p =>
    if p = model_checkpoint then
      some { model_state_dict := model_to_save.sd
             optimizer_state_dict := optimizer
             scheduler_state_dict := scheduler
             global_step := global_step
             test_best_acc := test_best_acc
             args := args }
    else fs p

/-- train.py resume_training (lines 70-82). The in-place mutations
(`model.load_state_dict`, `optimizer.load_state_dict`,
`scheduler.load_state_dict`, `args.start_step = ...`) are modelled by
returning the updated objects; FileNotFoundError is the `.error` case. -/
def resume_training (fs : FS) (args : Args) (model : TModel)
    (optimizer : OptSD) (scheduler : SchedSD) :
    Except String (Args × TModel × OptSD × SchedSD × Rat) :=
  match fs (checkpointPath args) with
  | some checkpoint =>
      .ok ({ args with start_step := checkpoint.global_step },
        loadStateDict model checkpoint.model_state_dict,
        checkpoint.optimizer_state_dict,
        checkpoint.scheduler_state_dict,
        checkpoint.test_best_acc)
  | none => .error ("No checkpoint found at " ++ checkpointPath args)

/-- The VisionTransformer constructor call at train.py:106-107: the recorded
construction arguments. Loading pretrained weights and moving to the device
(train.py:108-109) are library effects that do not change these fields. -/
structure VisionTransformer where
  img_size : Nat
  zero_head : Bool
  num_classes : Nat
  smoothing_value : Rat
  dataset : String
  contr_loss : Bool
  focal_loss : Bool
deriving DecidableEq, Repr

/-- The VisionTransformer(...) call of setup with a given num_classes. -/
def mkVit (args : Args) (num_classes : Nat) : VisionTransformer :=
  { img_size := args.img_size
    zero_head := true
    num_classes := num_classes
    smoothing_value := args.smoothing_value
    dataset := args.dataset
    contr_loss := args.contr_loss
    focal_loss := args.focal_loss }

/-- train.py setup (lines 91-116): the dataset dispatch fixing num_classes,
the `raise Exception(f-string)` for unknown datasets, then the model
construction. -/
def setup (args : Args) : Except String (Args × VisionTransformer) :=
  if args.dataset = "dogs" then
    .ok (args, mkVit args 120)
  else if args.dataset = "CUB" then
    .ok (args, mkVit args 200)
  else if args.dataset = "nabirds" then
    .ok (args, mkVit args 555)
  else if args.dataset = "INat2017" then
    .ok (args, mkVit args 5089)
  else
    .error ("Unknown dataset \"" ++ args.dataset ++ "\"")

/-- train.py AverageMeter (lines 34-49). Python numbers are modelled as
rationals; note that `self.avg = self.sum / self.count` raises
ZeroDivisionError in Python when count is 0, which is why the theorems
assume positive update weights. -/
structure AverageMeter where
  val : Rat
  avg : Rat
  sum : Rat
  count : Rat
deriving DecidableEq, Repr

/-- AverageMeter.reset (train.py:39-43): all four fields set to 0; the
constructor (train.py:36-37) calls it. -/
def AverageMeter.reset : AverageMeter :=
  { val := 0, avg := 0, sum := 0, count := 0 }

/-- AverageMeter.update (train.py:45-49). -/
def AverageMeter.update (m : AverageMeter) (val : Rat) (n : Rat) : AverageMeter :=
  let sum := m.sum + val * n
  let count := m.count + n
  { val := val, sum := sum, count := count, avg := sum / count }

/-- A fresh AverageMeter fed a sequence of (val, n) update calls. -/
def runMeter (l : List (Rat × Rat)) : AverageMeter :=
  l.foldl (fun m p => m.update p.1 p.2) AverageMeter.reset

/-- The loop state of train (train.py:203-338) plus the event traces the
properties talk about. `grads` is the gradient buffer: the scaled losses
backpropagated since the last optimizer.zero_grad(); `backwards` records
every backpropagated scaled loss; `consumed` records, at each
optimizer.step(), the buffer it consumed; `optIdx` the per-epoch micro-batch
index of each optimizer step; `optStepsGS` the global_step value right after
each optimizer step; `validGS` the global_step values at which valid ran;
`fs` the checkpoint file system; `stopped` whether the loop has hit the
`break` conditions at train.py:314-315 / 331-332. -/
structure LoopState where
  global_step : Nat
  best_acc : Rat
  grads : List Rat
  backwards : List Rat
  consumed : List (List Rat)
  optIdx : List Nat
  optStepsGS : List Nat
  validGS : List Nat
  fs : FS
  stopped : Bool

/-- The fixed data of one train(...) call: the args (after the batch-size
adjustment of train.py:209), the model / optimizer / scheduler whose opaque
serialized states save_model writes, and `valAcc`, the oracle giving the
accuracy that valid(args, model, writer, test_loader, global_step) returns
at a given global_step. -/
structure TrainEnv where
  args : Args
  model : TModel
  optimizer : OptSD
  scheduler : SchedSD
  valAcc : Nat → Rat

/-- The guard of train.py:306,
`global_step % args.eval_every == 0 and args.local_rank in [-1, 0]`. -/
def evalNow (args : Args) (gs : Nat) : Bool :=
  (gs % args.eval_every == 0) && (args.local_rank == -1 || args.local_rank == 0)

/-- train.py:280-287: scale the micro-batch loss by the accumulation count
when it is > 1, then loss.backward(), which adds the scaled loss's gradient
to the gradient buffer. -/
def backwardStep (g : Nat) (st : LoopState) (loss : Rat) : LoopState :=
  { st with
      grads := st.grads ++ [if g > 1 then loss / g else loss]
      backwards := st.backwards ++ [if g > 1 then loss / g else loss] }

/-- train.py:289-299: clip_grad_norm_, optimizer.step() consuming the
gradient buffer, scheduler.step(), optimizer.zero_grad(), global_step += 1. -/
def optimUpdate (st : LoopState) (step : Nat) : LoopState :=
  { st with consumed := st.consumed ++ [st.grads]
            grads := []
            global_step := st.global_step + 1
            optIdx := st.optIdx ++ [step]
            optStepsGS := st.optStepsGS ++ [st.global_step + 1] }

/-- train.py:306-313: when global_step is a multiple of eval_every and the
rank is -1 or 0, run valid; if the returned accuracy beats the incumbent
best_acc, save a checkpoint (note: passing the incumbent best_acc,
train.py:309) and then update best_acc (train.py:310). -/
def validAndSave (env : TrainEnv) (st : LoopState) : LoopState :=
  if evalNow env.args st.global_step then
    if env.valAcc st.global_step > st.best_acc then
      { st with
          validGS := st.validGS ++ [st.global_step]
          fs := save_model env.args env.model env.optimizer env.scheduler
                  st.global_step st.best_acc st.fs
          best_acc := env.valAcc st.global_step }
    else { st with validGS := st.validGS ++ [st.global_step] }
  else st

/-- One iteration of the inner batch loop (train.py:256-315) at micro-batch
index `step` with training loss `loss`. The trailing check is the `break` at
train.py:314-315, recorded in `stopped`. -/
def processBatch (env : TrainEnv) (st : LoopState) (step : Nat) (loss : Rat) :
    LoopState :=
  if (step + 1) % env.args.gradient_accumulation_steps = 0 then
    if (validAndSave env (optimUpdate
          (backwardStep env.args.gradient_accumulation_steps st loss)
          step)).global_step % env.args.num_steps = 0 then
      { validAndSave env (optimUpdate
          (backwardStep env.args.gradient_accumulation_steps st loss)
          step) with stopped := true }
    else
      validAndSave env (optimUpdate
        (backwardStep env.args.gradient_accumulation_steps st loss) step)
  else backwardStep env.args.gradient_accumulation_steps st loss

/-- The inner `for step, batch in enumerate(epoch_iterator)` loop
(train.py:256-315); once `stopped` is set the remaining batches of the epoch
are not processed. -/
def runEpochAux (env : TrainEnv) : LoopState → Nat → List Rat → LoopState
  | st, _, [] => st
  | st, step, loss :: rest =>
      if st.stopped then st
      else runEpochAux env (processBatch env st step loss) (step + 1) rest

/-- One pass over train_loader, with the micro-batch index starting at 0. -/
def runEpoch (env : TrainEnv) (st : LoopState) (losses : List Rat) : LoopState :=
  runEpochAux env st 0 losses

/-- The `while True` epoch loop (train.py:246-332). Each element of `epochs`
is the list of training losses of one pass over train_loader; after every
epoch the loop re-checks `global_step % args.num_steps == 0` (train.py:331). -/
def runEpochs (env : TrainEnv) : LoopState → List (List Rat) → LoopState
  | st, [] => st
  | st, e :: rest =>
      if st.stopped then st
      else if (runEpoch env st e).global_step % env.args.num_steps = 0 then
        { runEpoch env st e with stopped := true }
      else runEpochs env (runEpoch env st e) rest

/-- train.py:209:
`args.train_batch_size = args.train_batch_size // args.gradient_accumulation_steps`. -/
def trainArgsAdjusted (args : Args) : Args :=
  { args with
      train_batch_size := args.train_batch_size / args.gradient_accumulation_steps }

/-- The loop state on entry to the `while True` loop: train.py:241 zeroes the
gradients and train.py:244 sets `global_step, best_acc = 0, 0`. The `args`
argument is deliberately taken and not read: train never consults
args.start_step or args.test_best_acc. -/
def trainInit (args : Args) (fs : FS) : LoopState :=
  { global_step := 0, best_acc := 0, grads := [], backwards := []
    consumed := [], optIdx := [], optStepsGS := [], validGS := []
    fs := fs, stopped := false }

/-- train.py train (lines 203-338): adjust the batch size, then run the
epoch loop from the zeroed state. -/
def train (args : Args) (model : TModel) (optimizer : OptSD)
    (scheduler : SchedSD) (valAcc : Nat → Rat) (fs : FS)
    (epochs : List (List Rat)) : LoopState :=
  let args2 := trainArgsAdjusted args
  runEpochs ⟨args2, model, optimizer, scheduler, valAcc⟩
    (trainInit args2 fs) epochs

/-- train.py main (lines 442-454): when args.start_step > 0 it builds a
fresh optimizer and scheduler, resumes from the checkpoint (storing the
returned best accuracy into args.test_best_acc, train.py:449), and calls
train; otherwise it calls train directly. -/
def mainTrain (fs : FS) (args : Args) (model : TModel)
    (freshOpt : OptSD) (freshSched : SchedSD) (valAcc : Nat → Rat)
    (epochs : List (List Rat)) : Except String (Args × LoopState) :=
  if args.start_step > 0 then
    match resume_training fs args model freshOpt freshSched with
    | .ok (args2, model2, optimizer2, scheduler2, test_best_acc) =>
        let args3 := { args2 with test_best_acc := test_best_acc }
        .ok (args3, train args3 model2 optimizer2 scheduler2 valAcc fs epochs)
    | .error e => .error e
  else .ok (args, train args model freshOpt freshSched valAcc fs epochs)

/-- dist.all_reduce(rt, op=SUM) (train.py:86): rt receives, elementwise, the
sum of rt with the tensors held by every peer rank. -/
def allReduceSum (rt : List Rat) (peers : List (List Rat)) : List Rat :=
  peers.foldl (fun acc t => List.zipWith (fun a b => a + b) acc t) rt

/-- train.py reduce_mean (lines 84-89). The clone at line 85 means all
in-place operations target the fresh buffer rt, never the argument; the
returned pair is (the caller's tensor after the call, the returned rt). -/
def reduce_mean (tensor : List Rat) (peers : List (List Rat)) (nprocs : Rat) :
    List Rat × List Rat :=
  let rt := tensor
  let rt := allReduceSum rt peers
  let rt := rt.map (fun x => x / nprocs)
  (tensor, rt)

/-- The gradient-accumulation discipline maintained by the batch loop:
optimizer steps happen exactly at per-epoch indices with (step+1) % g == 0,
every consumed gradient buffer holds g scaled losses, the consumed buffers
plus the pending buffer account for every backward pass, and global_step
counts the optimizer steps; once stopped, global_step is a multiple of
num_steps. -/
def Inv7 (g ns : Nat) (st : LoopState) : Prop :=
  (∀ i ∈ st.optIdx, (i + 1) % g = 0) ∧
  (∀ c ∈ st.consumed, c.length = g) ∧
  st.consumed.flatten ++ st.grads = st.backwards ∧
  st.global_step = st.consumed.length ∧
  (st.stopped = true → st.global_step % ns = 0)

/-- The validation / stopping discipline of the loop: valid ran exactly at
the optimizer steps passing the train.py:306 guard, every optimizer step has
a positive global_step, the loop only stops with global_step a multiple of
num_steps, and an optimizer step hitting a multiple of num_steps stops the
loop at once (it is the last one). -/
def Inv8 (args : Args) (st : LoopState) : Prop :=
  st.validGS = st.optStepsGS.filter (evalNow args) ∧
  (∀ s ∈ st.optStepsGS, 0 < s) ∧
  (st.stopped = true → st.global_step % args.num_steps = 0) ∧
  (∀ s ∈ st.optStepsGS, s % args.num_steps = 0 →
    st.stopped = true ∧ s = st.global_step)

/-- Concrete run exhibiting what save_model stores: eval_every = 1 and a
single micro-batch, so the first optimizer step validates; the validation
accuracy is 5 while the incumbent best_acc is 0. -/
def cArgs1 : Args :=
  { name := "n", dataset := "CUB", output_dir := "o", train_batch_size := 4
    eval_every := 1, num_steps := 10000, gradient_accumulation_steps := 1
    local_rank := -1, img_size := 400, smoothing_value := 0
    contr_loss := false, focal_loss := false, start_step := 0
    test_best_acc := 0 }

/-- The run of train on cArgs1 with one epoch of one micro-batch, validation
accuracy constantly 5, starting from an empty file system. -/
def cRun1 : LoopState :=
  train cArgs1 (.plain 3) 4 5 (fun _ => 5) (fun _ => none) [[1]]

/-- Concrete resume scenario: a checkpoint recorded at global_step 100 with
test_best_acc 7, and args.start_step = 1 > 0 so that main resumes. -/
def cArgs2 : Args :=
  { name := "n", dataset := "CUB", output_dir := "o", train_batch_size := 4
    eval_every := 200, num_steps := 10000, gradient_accumulation_steps := 1
    local_rank := -1, img_size := 400, smoothing_value := 0
    contr_loss := false, focal_loss := false, start_step := 1
    test_best_acc := 0 }

/-- The checkpoint on disk for the resume scenario. -/
def cCkpt2 : Checkpoint :=
  { model_state_dict := 30, optimizer_state_dict := 40
    scheduler_state_dict := 50, global_step := 100, test_best_acc := 7
    args := cArgs2 }

/-- The file system holding cCkpt2 at the checkpoint path of cArgs2. -/
def cFs2 : FS := fun p => if p = checkpointPath cArgs2 then some cCkpt2 else none

/-- Concrete gradient-accumulation scenario: g = 2 with epochs of 3
micro-batches, so one scaled loss is left pending at the epoch boundary. -/
def cArgs7 : Args :=
  { name := "n", dataset := "CUB", output_dir := "o", train_batch_size := 4
    eval_every := 200, num_steps := 10000, gradient_accumulation_steps := 2
    local_rank := -1, img_size := 400, smoothing_value := 0
    contr_loss := false, focal_loss := false, start_step := 0
    test_best_acc := 0 }

/-- The run of train on cArgs7 over two epochs of three micro-batches each. -/
def cRun7 : LoopState :=
  train cArgs7 (.plain 3) 4 5 (fun _ => 0) (fun _ => none) [[2, 2, 2], [2, 2, 2]]

/-- Concrete validation-schedule scenario: eval_every = 1 and num_steps = 2,
so the run validates at steps 1 and 2 and stops at step 2. -/
def cArgs8 : Args :=
  { name := "n", dataset := "CUB", output_dir := "o", train_batch_size := 4
    eval_every := 1, num_steps := 2, gradient_accumulation_steps := 1
    local_rank := -1, img_size := 400, smoothing_value := 0
    contr_loss := false, focal_loss := false, start_step := 0
    test_best_acc := 0 }

/-! Helper lemmas about the loop step functions. -/

lemma succ_mod_add (i g : Nat) : (i + 1) % g = (i % g + 1) % g := by
  conv_lhs => rw [← Nat.div_add_mod i g]
  rw [Nat.add_assoc, Nat.mul_add_mod]

lemma succ_mod_of_ne_zero {i g : Nat} (hg : 0 < g) (h : (i + 1) % g ≠ 0) :
    (i + 1) % g = i % g + 1 := by
  rw [succ_mod_add] at h ⊢
  have hle : i % g + 1 ≤ g := Nat.mod_lt _ hg
  rcases Nat.lt_or_eq_of_le hle with h2 | h2
  · exact Nat.mod_eq_of_lt h2
  · rw [h2] at h; simp [Nat.mod_self] at h

lemma succ_mod_of_eq_zero {i g : Nat} (hg : 0 < g) (h : (i + 1) % g = 0) :
    i % g + 1 = g := by
  rw [succ_mod_add] at h
  have hle : i % g + 1 ≤ g := Nat.mod_lt _ hg
  rcases Nat.lt_or_eq_of_le hle with h2 | h2
  · rw [Nat.mod_eq_of_lt h2] at h; omega
  · exact h2

@[simp] lemma validAndSave_grads (env : TrainEnv) (st : LoopState) :
    (validAndSave env st).grads = st.grads := by
  unfold validAndSave; split
  · split <;> rfl
  · rfl

@[simp] lemma validAndSave_consumed (env : TrainEnv) (st : LoopState) :
    (validAndSave env st).consumed = st.consumed := by
  unfold validAndSave; split
  · split <;> rfl
  · rfl

@[simp] lemma validAndSave_backwards (env : TrainEnv) (st : LoopState) :
    (validAndSave env st).backwards = st.backwards := by
  unfold validAndSave; split
  · split <;> rfl
  · rfl

@[simp] lemma validAndSave_optIdx (env : TrainEnv) (st : LoopState) :
    (validAndSave env st).optIdx = st.optIdx := by
  unfold validAndSave; split
  · split <;> rfl
  · rfl

@[simp] lemma validAndSave_optStepsGS (env : TrainEnv) (st : LoopState) :
    (validAndSave env st).optStepsGS = st.optStepsGS := by
  unfold validAndSave; split
  · split <;> rfl
  · rfl

@[simp] lemma validAndSave_global_step (env : TrainEnv) (st : LoopState) :
    (validAndSave env st).global_step = st.global_step := by
  unfold validAndSave; split
  · split <;> rfl
  · rfl

@[simp] lemma validAndSave_stopped (env : TrainEnv) (st : LoopState) :
    (validAndSave env st).stopped = st.stopped := by
  unfold validAndSave; split
  · split <;> rfl
  · rfl

@[simp] lemma validAndSave_validGS (env : TrainEnv) (st : LoopState) :
    (validAndSave env st).validGS =
      st.validGS ++ (if evalNow env.args st.global_step
        then [st.global_step] else []) := by
  unfold validAndSave; split
  · split <;> simp_all
  · simp_all

lemma processBatch_inv7 (env : TrainEnv) (st : LoopState) (step : Nat)
    (loss : Rat) (hg : 0 < env.args.gradient_accumulation_steps)
    (hstop : st.stopped = false)
    (hmod : st.grads.length = step % env.args.gradient_accumulation_steps)
    (hInv : Inv7 env.args.gradient_accumulation_steps env.args.num_steps st) :
    Inv7 env.args.gradient_accumulation_steps env.args.num_steps
      (processBatch env st step loss) ∧
    (processBatch env st step loss).grads.length =
      (step + 1) % env.args.gradient_accumulation_steps := by
  obtain ⟨h1, h2, h3, h4, h5⟩ := hInv
  unfold processBatch
  by_cases hf : (step + 1) % env.args.gradient_accumulation_steps = 0
  · rw [if_pos hf]
    have hlen : (st.grads ++
        [if env.args.gradient_accumulation_steps > 1 then
          loss / (env.args.gradient_accumulation_steps : Rat) else loss]).length =
        env.args.gradient_accumulation_steps := by
      rw [List.length_append, hmod, List.length_singleton]
      exact succ_mod_of_eq_zero hg hf
    constructor
    · constructor
      · intro i hi
        split at hi <;>
          simp only [validAndSave_optIdx, optimUpdate, backwardStep] at hi <;>
          rcases List.mem_append.mp hi with h | h
        · exact h1 i h
        · rw [List.mem_singleton.mp h]; exact hf
        · exact h1 i h
        · rw [List.mem_singleton.mp h]; exact hf
      constructor
      · intro c hc
        split at hc <;>
          simp only [validAndSave_consumed, optimUpdate, backwardStep] at hc <;>
          rcases List.mem_append.mp hc with h | h
        · exact h2 c h
        · rw [List.mem_singleton.mp h]; exact hlen
        · exact h2 c h
        · rw [List.mem_singleton.mp h]; exact hlen
      constructor
      · split <;>
          simp only [validAndSave_consumed, validAndSave_grads, validAndSave_backwards,
            optimUpdate, backwardStep, List.flatten_append, List.flatten_cons,
            List.flatten_nil, List.append_nil] <;>
          rw [← List.append_assoc, h3]
      constructor
      · split <;>
          simp only [validAndSave_global_step, validAndSave_consumed,
            optimUpdate, backwardStep, List.length_append, List.length_singleton, h4]
      · split
        · intro _
          next hns _ =>
            simpa using hns
        · next hns =>
            intro hcon
            rw [validAndSave_stopped] at hcon
            simp only [optimUpdate, backwardStep] at hcon
            rw [hstop] at hcon
            exact absurd hcon (by simp)
    · split <;>
        simp only [validAndSave_grads, optimUpdate, backwardStep,
          List.length_nil] <;> omega
  · rw [if_neg hf]
    refine ⟨⟨h1, h2, ?_, h4, ?_⟩, ?_⟩
    · simp only [backwardStep]
      rw [← List.append_assoc, h3]
    · simp only [backwardStep]
      intro hcon
      rw [hstop] at hcon
      exact absurd hcon (by simp)
    · simp only [backwardStep, List.length_append, List.length_singleton, hmod]
      exact (succ_mod_of_ne_zero hg hf).symm

lemma processBatch_inv8 (env : TrainEnv) (st : LoopState) (step : Nat)
    (loss : Rat) (hstop : st.stopped = false)
    (hInv : Inv8 env.args st) : Inv8 env.args (processBatch env st step loss) := by
  obtain ⟨h1, h2, h3, h4⟩ := hInv
  unfold processBatch
  by_cases hf : (step + 1) % env.args.gradient_accumulation_steps = 0
  · rw [if_pos hf]
    have hgs : ∀ s ∈ st.optStepsGS, s % env.args.num_steps = 0 → False := by
      intro s hs hmul
      have := (h4 s hs hmul).1
      rw [hstop] at this
      exact absurd this (by simp)
    constructor
    · split <;>
        simp only [validAndSave_validGS, validAndSave_optStepsGS,
          validAndSave_global_step, optimUpdate, backwardStep,
          List.filter_append, h1] <;>
        cases hE : evalNow env.args (st.global_step + 1) <;> simp [List.filter, hE]
    constructor
    · intro s hs
      split at hs <;>
        simp only [validAndSave_optStepsGS, optimUpdate, backwardStep] at hs <;>
        rcases List.mem_append.mp hs with h | h
      · exact h2 s h
      · rw [List.mem_singleton.mp h]; exact Nat.succ_pos _
      · exact h2 s h
      · rw [List.mem_singleton.mp h]; exact Nat.succ_pos _
    constructor
    · split
      · intro _
        next hns _ =>
          simpa using hns
      · next hns =>
          intro hcon
          rw [validAndSave_stopped] at hcon
          simp only [optimUpdate, backwardStep] at hcon
          rw [hstop] at hcon
          exact absurd hcon (by simp)
    · intro s hs hmul
      by_cases hns : (validAndSave env (optimUpdate
          (backwardStep env.args.gradient_accumulation_steps st loss)
          step)).global_step % env.args.num_steps = 0
      · rw [if_pos hns] at hs ⊢
        simp only [validAndSave_optStepsGS, optimUpdate, backwardStep] at hs
        rcases List.mem_append.mp hs with h | h
        · exact absurd hmul (fun hm => hgs s h hm)
        · refine ⟨rfl, ?_⟩
          rw [List.mem_singleton.mp h]
          simp [optimUpdate, backwardStep]
      · rw [if_neg hns] at hs
        simp only [validAndSave_optStepsGS, optimUpdate, backwardStep] at hs
        rcases List.mem_append.mp hs with h | h
        · exact absurd hmul (fun hm => hgs s h hm)
        · rw [List.mem_singleton.mp h] at hmul
          rw [validAndSave_global_step] at hns
          simp only [optimUpdate, backwardStep] at hns
          exact absurd hmul hns
  · rw [if_neg hf]
    refine ⟨?_, ?_, ?_, ?_⟩
    · simpa [backwardStep] using h1
    · simpa [backwardStep] using h2
    · simp only [backwardStep]
      intro hcon
      rw [hstop] at hcon
      exact absurd hcon (by simp)
    · intro s hs hmul
      simp only [backwardStep] at hs
      exact absurd ((h4 s hs hmul).1.symm.trans hstop) (by simp)

lemma runEpochAux_cons (env : TrainEnv) (st : LoopState) (step : Nat)
    (l : Rat) (rest : List Rat) :
    runEpochAux env st step (l :: rest) =
      if st.stopped then st
      else runEpochAux env (processBatch env st step l) (step + 1) rest := rfl

lemma runEpochs_cons (env : TrainEnv) (st : LoopState) (e : List Rat)
    (rest : List (List Rat)) :
    runEpochs env st (e :: rest) =
      if st.stopped then st
      else if (runEpoch env st e).global_step % env.args.num_steps = 0 then
        { runEpoch env st e with stopped := true }
      else runEpochs env (runEpoch env st e) rest := rfl

lemma runEpochAux_inv7 (env : TrainEnv)
    (hg : 0 < env.args.gradient_accumulation_steps) :
    ∀ (ls : List Rat) (step : Nat) (st : LoopState),
    st.grads.length = step % env.args.gradient_accumulation_steps →
    Inv7 env.args.gradient_accumulation_steps env.args.num_steps st →
    Inv7 env.args.gradient_accumulation_steps env.args.num_steps
      (runEpochAux env st step ls) ∧
    ((runEpochAux env st step ls).stopped = false →
      (runEpochAux env st step ls).grads.length =
        (step + ls.length) % env.args.gradient_accumulation_steps) := by
  intro ls
  induction ls with
  | nil =>
      intro step st hmod hInv
      exact ⟨hInv, fun _ => by simpa using hmod⟩
  | cons l rest ih =>
      intro step st hmod hInv
      rw [runEpochAux_cons]
      by_cases hstop : st.stopped
      · rw [if_pos hstop]
        exact ⟨hInv, fun hcon => absurd (hcon.symm.trans hstop) (by simp)⟩
      · rw [if_neg hstop]
        have hstop2 : st.stopped = false := by
          cases h : st.stopped
          · rfl
          · exact absurd h hstop
        obtain ⟨hI2, hlen2⟩ :=
          processBatch_inv7 env st step l hg hstop2 hmod hInv
        obtain ⟨hA, hB⟩ := ih (step + 1) (processBatch env st step l) hlen2 hI2
        refine ⟨hA, fun hns => ?_⟩
        rw [hB hns]
        have : step + 1 + rest.length = step + (l :: rest).length := by
          simp [List.length_cons]; omega
        rw [this]

lemma runEpochAux_inv8 (env : TrainEnv) :
    ∀ (ls : List Rat) (step : Nat) (st : LoopState),
    Inv8 env.args st → Inv8 env.args (runEpochAux env st step ls) := by
  intro ls
  induction ls with
  | nil => intro step st hInv; exact hInv
  | cons l rest ih =>
      intro step st hInv
      rw [runEpochAux_cons]
      by_cases hstop : st.stopped
      · rw [if_pos hstop]; exact hInv
      · rw [if_neg hstop]
        have hstop2 : st.stopped = false := by
          cases h : st.stopped
          · rfl
          · exact absurd h hstop
        exact ih (step + 1) _ (processBatch_inv8 env st step l hstop2 hInv)

lemma runEpochs_inv7 (env : TrainEnv)
    (hg : 0 < env.args.gradient_accumulation_steps) :
    ∀ (epochs : List (List Rat)) (st : LoopState),
    (∀ e ∈ epochs, env.args.gradient_accumulation_steps ∣ e.length) →
    st.grads = [] →
    Inv7 env.args.gradient_accumulation_steps env.args.num_steps st →
    Inv7 env.args.gradient_accumulation_steps env.args.num_steps
      (runEpochs env st epochs) := by
  intro epochs
  induction epochs with
  | nil => intro st _ _ hInv; exact hInv
  | cons e rest ih =>
      intro st hdiv hnil hInv
      rw [runEpochs_cons]
      by_cases hstop : st.stopped
      · rw [if_pos hstop]; exact hInv
      · rw [if_neg hstop]
        have hmod : st.grads.length =
            0 % env.args.gradient_accumulation_steps := by
          rw [hnil]; simp
        obtain ⟨hI2, hlen2⟩ := runEpochAux_inv7 env hg e 0 st hmod hInv
        by_cases hns :
            (runEpoch env st e).global_step % env.args.num_steps = 0
        · rw [if_pos hns]
          obtain ⟨j1, j2, j3, j4, _⟩ := hI2
          exact ⟨j1, j2, j3, j4, fun _ => hns⟩
        · rw [if_neg hns]
          have hXstop : (runEpoch env st e).stopped = false := by
            cases h : (runEpoch env st e).stopped
            · rfl
            · exact absurd (hI2.2.2.2.2 h) hns
          have hXnil : (runEpoch env st e).grads = [] := by
            rw [← List.length_eq_zero]
            show (runEpochAux env st 0 e).grads.length = 0
            rw [hlen2 hXstop]
            obtain ⟨k, hk⟩ := hdiv e (by simp)
            simp [hk, Nat.mul_mod_right]
          exact ih (runEpoch env st e)
            (fun e2 he2 => hdiv e2 (by simp [he2])) hXnil hI2

lemma runEpochs_inv8 (env : TrainEnv) :
    ∀ (epochs : List (List Rat)) (st : LoopState),
    Inv8 env.args st → Inv8 env.args (runEpochs env st epochs) := by
  intro epochs
  induction epochs with
  | nil => intro st hInv; exact hInv
  | cons e rest ih =>
      intro st hInv
      rw [runEpochs_cons]
      by_cases hstop : st.stopped
      · rw [if_pos hstop]; exact hInv
      · rw [if_neg hstop]
        have hI2 := runEpochAux_inv8 env e 0 st hInv
        by_cases hns :
            (runEpoch env st e).global_step % env.args.num_steps = 0
        · rw [if_pos hns]
          obtain ⟨j1, j2, _, j4⟩ := hI2
          refine ⟨j1, j2, fun _ => hns, ?_⟩
          intro s hs hmul
          exact ⟨rfl, (j4 s hs hmul).2⟩
        · rw [if_neg hns]
          exact ih (runEpoch env st e) hI2

lemma getLastD_of_ne_nil {α : Type} (l : List α) (hne : l ≠ []) (a b : α) :
    l.getLastD a = l.getLastD b := by
  cases l with
  | nil => exact absurd rfl hne
  | cons x xs => rfl

lemma runMeter_foldl (l : List (Rat × Rat)) (hne : l ≠ []) :
    ∀ m0 : AverageMeter,
    l.foldl (fun m p => m.update p.1 p.2) m0 =
      { val := (l.getLastD (0, 0)).1
        avg := (m0.sum + (l.map (fun p => p.1 * p.2)).sum) /
               (m0.count + (l.map Prod.snd).sum)
        sum := m0.sum + (l.map (fun p => p.1 * p.2)).sum
        count := m0.count + (l.map Prod.snd).sum } := by
  induction l with
  | nil => exact absurd rfl hne
  | cons p rest ih =>
      intro m0
      cases rest with
      | nil =>
          simp [AverageMeter.update, List.getLastD]
      | cons q rest2 =>
          rw [List.foldl_cons, ih (by simp)]
          have hval : ((q :: rest2).getLastD (p.1, p.2)) =
              ((q :: rest2).getLastD (0, 0)) :=
            getLastD_of_ne_nil _ (by simp) _ _
          simp only [AverageMeter.update, List.map_cons, List.sum_cons,
            List.getLastD_cons, hval]
          congr 1 <;> ring

lemma zipWith_add_getD : ∀ (a b : List Rat) (i : Nat), a.length = b.length →
    (List.zipWith (fun x y => x + y) a b).getD i 0 = a.getD i 0 + b.getD i 0 := by
  intro a
  induction a with
  | nil =>
      intro b i hlen
      cases b with
      | nil => simp
      | cons y ys => simp at hlen
  | cons x xs ih =>
      intro b i hlen
      cases b with
      | nil => simp at hlen
      | cons y ys =>
          cases i with
          | zero => simp
          | succ j =>
              simp only [List.zipWith_cons_cons, List.getD_cons_succ]
              exact ih ys j (by simpa using hlen)

lemma allReduceSum_getD (peers : List (List Rat)) :
    ∀ (t : List Rat), (∀ p ∈ peers, p.length = t.length) →
    (allReduceSum t peers).length = t.length ∧
    ∀ i : Nat, (allReduceSum t peers).getD i 0 =
      t.getD i 0 + (peers.map (fun p => p.getD i 0)).sum := by
  induction peers with
  | nil =>
      intro t _
      refine ⟨rfl, fun i => ?_⟩
      simp [allReduceSum]
  | cons p ps ih =>
      intro t hlen
      have hp : p.length = t.length := hlen p (by simp)
      have hzlen : (List.zipWith (fun x y => x + y) t p).length = t.length := by
        rw [List.length_zipWith, hp, Nat.min_self]
      have hrec := ih (List.zipWith (fun x y => x + y) t p)
        (fun q hq => by rw [hzlen]; exact hlen q (by simp [hq]))
      have hstep : allReduceSum t (p :: ps) =
          allReduceSum (List.zipWith (fun x y => x + y) t p) ps := rfl
      refine ⟨by rw [hstep, hrec.1, hzlen], fun i => ?_⟩
      rw [hstep, hrec.2 i, zipWith_add_getD t p i hp.symm]
      simp [Rat.add_assoc]

lemma map_div_getD (n : Rat) : ∀ (l : List Rat) (i : Nat),
    (l.map (fun x => x / n)).getD i 0 = (l.getD i 0) / n := by
  intro l
  induction l with
  | nil => intro i; simp
  | cons x xs ih =>
      intro i
      cases i with
      | zero => simp
      | succ j => simpa using ih j

/-! The claims. -/

/-- C3: round trip of checkpointing. After
save_model(args, model, optimizer, scheduler, s, a), a resume_training with
the same args.output_dir and args.name does not raise, returns test_best_acc
equal to a, sets args.start_step equal to s, and loads the saved states into
the given model / optimizer / scheduler. -/
theorem save_resume_round_trip (args args2 : Args) (model model2 : TModel)
    (optimizer opt2 : OptSD) (scheduler sched2 : SchedSD)
    (global_step : Nat) (acc : Rat) (fs : FS)
    (ho : args2.output_dir = args.output_dir) (hn : args2.name = args.name) :
    resume_training
        (save_model args model optimizer scheduler global_step acc fs)
        args2 model2 opt2 sched2 =
      .ok ({ args2 with start_step := global_step },
        loadStateDict model2 (modelToSave model).sd,
        optimizer, scheduler, acc) := by
  have hpath : checkpointPath args2 = checkpointPath args := by
    simp [checkpointPath, ho, hn]
  unfold resume_training
  rw [hpath]
  simp [save_model]

/-- Witness for C3 at a concrete save then resume. -/
theorem save_resume_round_trip_witness :
    cArgs1.output_dir = cArgs1.output_dir ∧ cArgs1.name = cArgs1.name ∧
    resume_training (save_model cArgs1 (.plain 3) 4 5 7 9 (fun _ => none))
        cArgs1 (.ddp 11) 12 13 =
      .ok ({ cArgs1 with start_step := 7 },
        loadStateDict (.ddp 11) (modelToSave (.plain 3)).sd, 4, 5, 9) :=
  ⟨rfl, rfl, save_resume_round_trip cArgs1 cArgs1 (.plain 3) (.ddp 11) 4 12 5 13
    7 9 (fun _ => none) rfl rfl⟩

/-- C4: resume_training raises FileNotFoundError exactly when no file exists
at output_dir/(name)_checkpoint.bin; when the file exists it restores model,
optimizer and scheduler state from the checkpoint and returns them together
with the stored best accuracy, without raising. -/
theorem resume_raises_iff_missing (fs : FS) (args : Args) (model : TModel)
    (optimizer : OptSD) (scheduler : SchedSD) :
    (resume_training fs args model optimizer scheduler =
        .error ("No checkpoint found at " ++ checkpointPath args) ↔
      fs (checkpointPath args) = none) ∧
    (∀ c : Checkpoint, fs (checkpointPath args) = some c →
      resume_training fs args model optimizer scheduler =
        .ok ({ args with start_step := c.global_step },
          loadStateDict model c.model_state_dict,
          c.optimizer_state_dict, c.scheduler_state_dict,
          c.test_best_acc)) := by
  cases hfs : fs (checkpointPath args) with
  | none =>
      refine ⟨?_, ?_⟩
      · unfold resume_training
        rw [hfs]
        simp
      · intro c hc
        exact absurd hc (by simp)
  | some c =>
      refine ⟨?_, ?_⟩
      · unfold resume_training
        rw [hfs]
        simp
      · intro c2 hc
        have hcc : c = c2 := by injection hc
        subst hcc
        unfold resume_training
        rw [hfs]

/-- Witness for C4: the empty file system raises; a file system holding
cCkpt2 resumes with its stored values. -/
theorem resume_raises_iff_missing_witness :
    ((fun _ => none : FS) (checkpointPath cArgs2) = none) ∧
    (resume_training (fun _ => none) cArgs2 (.plain 0) 1 2 =
      .error ("No checkpoint found at " ++ checkpointPath cArgs2)) ∧
    (cFs2 (checkpointPath cArgs2) = some cCkpt2) ∧
    (resume_training cFs2 cArgs2 (.plain 0) 1 2 =
      .ok ({ cArgs2 with start_step := cCkpt2.global_step },
        loadStateDict (.plain 0) cCkpt2.model_state_dict,
        cCkpt2.optimizer_state_dict, cCkpt2.scheduler_state_dict,
        cCkpt2.test_best_acc)) :=
  ⟨rfl,
   (resume_raises_iff_missing (fun _ => none) cArgs2 (.plain 0) 1 2).1.mpr rfl,
   by decide,
   (resume_raises_iff_missing cFs2 cArgs2 (.plain 0) 1 2).2 cCkpt2 (by decide)⟩

/-- C5: setup raises an exception naming the unknown dataset for every
args.dataset outside the four known ones; for those four it does not raise,
fixing num_classes to 120, 200, 555 and 5089 respectively before the model
is constructed with that num_classes. -/
theorem setup_dataset_dispatch (args : Args) :
    (args.dataset ∉ ["dogs", "CUB", "nabirds", "INat2017"] →
      setup args = .error ("Unknown dataset \"" ++ args.dataset ++ "\"")) ∧
    (args.dataset = "dogs" → setup args = .ok (args, mkVit args 120)) ∧
    (args.dataset = "CUB" → setup args = .ok (args, mkVit args 200)) ∧
    (args.dataset = "nabirds" → setup args = .ok (args, mkVit args 555)) ∧
    (args.dataset = "INat2017" → setup args = .ok (args, mkVit args 5089)) ∧
    (∀ k : Nat, (mkVit args k).num_classes = k) := by
  refine ⟨?_, ?_, ?_, ?_, ?_, fun k => rfl⟩
  · intro h
    have h1 : ¬args.dataset = "dogs" := fun he => h (by simp [he])
    have h2 : ¬args.dataset = "CUB" := fun he => h (by simp [he])
    have h3 : ¬args.dataset = "nabirds" := fun he => h (by simp [he])
    have h4 : ¬args.dataset = "INat2017" := fun he => h (by simp [he])
    unfold setup
    rw [if_neg h1, if_neg h2, if_neg h3, if_neg h4]
  · intro h
    unfold setup
    rw [if_pos h]
  · intro h
    unfold setup
    rw [if_neg (by rw [h]; decide), if_pos h]
  · intro h
    unfold setup
    rw [if_neg (by rw [h]; decide), if_neg (by rw [h]; decide), if_pos h]
  · intro h
    unfold setup
    rw [if_neg (by rw [h]; decide), if_neg (by rw [h]; decide),
      if_neg (by rw [h]; decide), if_pos h]

/-- Witness for C5 at the unknown dataset "imagenet" and at "nabirds". -/
theorem setup_dataset_dispatch_witness :
    ("imagenet" ∉ ["dogs", "CUB", "nabirds", "INat2017"]) ∧
    setup { cArgs1 with dataset := "imagenet" } =
      .error ("Unknown dataset \"" ++ "imagenet" ++ "\"") ∧
    setup { cArgs1 with dataset := "nabirds" } =
      .ok ({ cArgs1 with dataset := "nabirds" },
        mkVit { cArgs1 with dataset := "nabirds" } 555) :=
  ⟨by decide,
   (setup_dataset_dispatch { cArgs1 with dataset := "imagenet" }).1 (by decide),
   (setup_dataset_dispatch
      { cArgs1 with dataset := "nabirds" }).2.2.2.1 rfl⟩

/-- C6: every save_model call writes, at output_dir/(name)_checkpoint.bin,
a record holding the serialized weights of the model (unwrapping the
distributed .module wrapper when present), the optimizer state, the
scheduler state, the step counter and the best-accuracy scalar. -/
theorem save_model_writes_record (args : Args) (model : TModel)
    (optimizer : OptSD) (scheduler : SchedSD) (global_step : Nat)
    (test_best_acc : Rat) (fs : FS) :
    save_model args model optimizer scheduler global_step test_best_acc fs
        (checkpointPath args) =
      some { model_state_dict := (modelToSave model).sd
             optimizer_state_dict := optimizer
             scheduler_state_dict := scheduler
             global_step := global_step
             test_best_acc := test_best_acc
             args := args } ∧
    (∀ sd : ModelSD, modelToSave (.ddp sd) = .plain sd) ∧
    (∀ sd : ModelSD, modelToSave (.plain sd) = .plain sd) :=
  ⟨by simp [save_model], fun _ => rfl, fun _ => rfl⟩

/-- C9: AverageMeter invariant. reset zeroes val, avg, sum, count; after a
non-empty sequence of update(val_i, n_i) calls with positive weights
(Python raises ZeroDivisionError when count is 0, so weights below 1 never
occur: every call site uses the default n = 1), count is the sum of the n_i,
sum is the sum of val_i * n_i, val is the last val_i, avg is sum / count,
and hence avg * count = sum. -/
theorem average_meter_invariant (l : List (Rat × Rat)) (hne : l ≠ [])
    (hpos : l.all (fun p => 1 ≤ p.2) = true) :
    AverageMeter.reset = { val := 0, avg := 0, sum := 0, count := 0 } ∧
    (runMeter l).count = (l.map Prod.snd).sum ∧
    (runMeter l).sum = (l.map (fun p => p.1 * p.2)).sum ∧
    (runMeter l).val = (l.getLastD (0, 0)).1 ∧
    (runMeter l).avg = (runMeter l).sum / (runMeter l).count ∧
    (runMeter l).avg * (runMeter l).count = (runMeter l).sum := by
  have hfold := runMeter_foldl l hne AverageMeter.reset
  have hrm : runMeter l =
      { val := (l.getLastD (0, 0)).1
        avg := (0 + (l.map (fun p => p.1 * p.2)).sum) /
               (0 + (l.map Prod.snd).sum)
        sum := 0 + (l.map (fun p => p.1 * p.2)).sum
        count := 0 + (l.map Prod.snd).sum } := hfold
  have hcpos : 0 < (l.map Prod.snd).sum := by
    apply List.sum_pos
    · intro x hx
      obtain ⟨p, hp, hpx⟩ := List.mem_map.mp hx
      have h1 : (1 : Rat) ≤ p.2 := by
        have := List.all_eq_true.mp hpos p hp
        simpa using this
      rw [← hpx]
      exact lt_of_lt_of_le one_pos h1
    · simpa using hne
  refine ⟨rfl, ?_, ?_, ?_, ?_, ?_⟩
  · rw [hrm]; simp
  · rw [hrm]; simp
  · rw [hrm]
  · rw [hrm]
  · rw [hrm]
    simp only [zero_add]
    exact div_mul_cancel₀ _ (ne_of_gt hcpos)

/-- Witness for C9 on the update sequence (3, 2), (4, 1). -/
theorem average_meter_invariant_witness :
    (([((3 : Rat), (2 : Rat)), (4, 1)] : List (Rat × Rat)) ≠ []) ∧
    (([((3 : Rat), (2 : Rat)), (4, 1)] : List (Rat × Rat)).all
      (fun p => 1 ≤ p.2) = true) ∧
    (runMeter [(3, 2), (4, 1)]).count =
      (([((3 : Rat), (2 : Rat)), (4, 1)] : List (Rat × Rat)).map Prod.snd).sum ∧
    (runMeter [(3, 2), (4, 1)]).avg * (runMeter [(3, 2), (4, 1)]).count =
      (runMeter [(3, 2), (4, 1)]).sum :=
  ⟨by decide, by decide,
   (average_meter_invariant [(3, 2), (4, 1)] (by decide) (by decide)).2.1,
   (average_meter_invariant [(3, 2), (4, 1)] (by decide)
      (by decide)).2.2.2.2.2⟩

/-- C10: reduce_mean leaves its argument tensor unchanged (the all-reduce
acts on the clone) and returns, elementwise, the sum of the tensor across
all participating processes divided by nprocs. -/
theorem reduce_mean_frame (tensor : List Rat) (peers : List (List Rat))
    (nprocs : Rat)
    (hlen : peers.all (fun p => p.length == tensor.length) = true) :
    (reduce_mean tensor peers nprocs).1 = tensor ∧
    (reduce_mean tensor peers nprocs).2.length = tensor.length ∧
    ∀ i : Nat, (reduce_mean tensor peers nprocs).2.getD i 0 =
      (tensor.getD i 0 + (peers.map (fun p => p.getD i 0)).sum) / nprocs := by
  have hlen2 : ∀ p ∈ peers, p.length = tensor.length := by
    intro p hp
    have := List.all_eq_true.mp hlen p hp
    simpa using this
  obtain ⟨hL, hG⟩ := allReduceSum_getD peers tensor hlen2
  refine ⟨rfl, ?_, ?_⟩
  · show ((allReduceSum tensor peers).map (fun x => x / nprocs)).length = _
    rw [List.length_map, hL]
  · intro i
    show ((allReduceSum tensor peers).map (fun x => x / nprocs)).getD i 0 = _
    rw [map_div_getD, hG i]

/-- Witness for C10 on the tensor [1, 2] with one peer [3, 4] and nprocs 2. -/
theorem reduce_mean_frame_witness :
    (([[(3 : Rat), 4]] : List (List Rat)).all
      (fun p => p.length == ([(1 : Rat), 2] : List Rat).length) = true) ∧
    (reduce_mean [(1 : Rat), 2] [[3, 4]] 2).1 = [(1 : Rat), 2] ∧
    (reduce_mean [(1 : Rat), 2] [[3, 4]] 2).2.getD 0 0 =
      (([(1 : Rat), 2] : List Rat).getD 0 0 +
        (([[(3 : Rat), 4]] : List (List Rat)).map (fun p => p.getD 0 0)).sum) / 2 :=
  ⟨by decide,
   (reduce_mean_frame [(1 : Rat), 2] [[3, 4]] 2 (by decide)).1,
   (reduce_mean_frame [(1 : Rat), 2] [[3, 4]] 2 (by decide)).2.2 0⟩

/-- C1 (evidence of the code's behaviour at the failing input): in a run
whose first validation (at global_step 1) returns accuracy 5 against the
incumbent best_acc 0, the checkpoint that this validation triggers stores
test_best_acc = 0 — the stale incumbent — while the best validation accuracy
observed so far, recorded in best_acc, is 5: train.py:309 passes best_acc to
save_model before the update best_acc = accuracy at train.py:310. -/
theorem stale_best_acc_saved :
    (cRun1.fs (checkpointPath (trainArgsAdjusted cArgs1))).map
        (fun c => c.test_best_acc) = some 0 ∧
    cRun1.validGS = [1] ∧
    cRun1.best_acc = 5 ∧
    (0 : Rat) ≠ 5 :=
  ⟨by decide, by decide, by decide, by decide⟩

/-- C2 (evidence of the code's behaviour at the failing input): main resumes
from a checkpoint recorded at global_step 100 with test_best_acc 7, and
resume_training does store 100 into args.start_step and 7 into
args.test_best_acc; yet the training loop starts from the zeroed state of
train.py:244 — its first optimizer step is global_step 1, not 101, and its
incumbent best accuracy is 0, not 7. -/
theorem resume_ignored_by_loop :
    (mainTrain cFs2 cArgs2 (.plain 0) 7 8 (fun _ => 0) [[1]]).toOption.map
        (fun p => (p.1.start_step, p.1.test_best_acc, p.2.global_step,
          p.2.best_acc, p.2.optStepsGS)) = some (100, 7, 1, 0, [1]) ∧
    (trainInit { cArgs2 with start_step := 100, test_best_acc := 7 }
        cFs2).global_step = 0 ∧
    (trainInit { cArgs2 with start_step := 100, test_best_acc := 7 }
        cFs2).best_acc = 0 ∧
    (1 : Nat) ≠ 101 :=
  ⟨by decide, rfl, rfl, by decide⟩

/-- C7 counterexample: with gradient_accumulation_steps = 2 and epochs of 3
micro-batches, the pending gradient at the epoch boundary is never zeroed,
so the second optimizer update aggregates 3 micro-batch gradients, not 2:
the claim that each optimizer update aggregates g micro-batches fails. -/
theorem gradient_accumulation_cex :
    cRun7.consumed.map List.length = [2, 3] ∧
    ¬ (∀ c ∈ cRun7.consumed, c.length = cArgs7.gradient_accumulation_steps) :=
  ⟨by decide, by decide⟩

lemma processBatch_backwards (env : TrainEnv) (st : LoopState) (step : Nat)
    (loss : Rat) :
    (processBatch env st step loss).backwards =
      st.backwards ++ [if env.args.gradient_accumulation_steps > 1 then
        loss / (env.args.gradient_accumulation_steps : Rat) else loss] := by
  unfold processBatch
  split
  · split <;> simp [optimUpdate, backwardStep]
  · simp [backwardStep]

/-- C7 (amended): the loop divides train_batch_size by g (train.py:209) and
divides each micro-batch loss by g before backpropagation when g > 1
(train.py:280-281); optimizer steps (clipping, optimizer.step,
scheduler.step, zeroing, global_step increment) happen exactly at the
per-epoch micro-batch indices with (step + 1) mod g == 0, and — provided
each epoch's micro-batch count is a multiple of g, since gradients pending
at an epoch boundary are not zeroed — every optimizer update aggregates the
gradients of exactly g micro-batches: the consumed buffers all have length
g, they and the pending buffer account for every backward pass, and
global_step counts the updates. -/
theorem gradient_accumulation_discipline (args : Args) (model : TModel)
    (optimizer : OptSD) (scheduler : SchedSD) (valAcc : Nat → Rat) (fs : FS)
    (epochs : List (List Rat))
    (hg : 1 ≤ args.gradient_accumulation_steps)
    (hdiv : epochs.all
      (fun e => e.length % args.gradient_accumulation_steps == 0) = true) :
    (trainArgsAdjusted args).train_batch_size =
      args.train_batch_size / args.gradient_accumulation_steps ∧
    (∀ (st : LoopState) (step : Nat) (loss : Rat),
      (processBatch ⟨trainArgsAdjusted args, model, optimizer, scheduler,
          valAcc⟩ st step loss).backwards =
        st.backwards ++ [if args.gradient_accumulation_steps > 1 then
          loss / (args.gradient_accumulation_steps : Rat) else loss]) ∧
    (∀ i ∈ (train args model optimizer scheduler valAcc fs epochs).optIdx,
      (i + 1) % args.gradient_accumulation_steps = 0) ∧
    (∀ c ∈ (train args model optimizer scheduler valAcc fs epochs).consumed,
      c.length = args.gradient_accumulation_steps) ∧
    (train args model optimizer scheduler valAcc fs
        epochs).consumed.flatten ++
      (train args model optimizer scheduler valAcc fs epochs).grads =
      (train args model optimizer scheduler valAcc fs epochs).backwards ∧
    (train args model optimizer scheduler valAcc fs epochs).global_step =
      (train args model optimizer scheduler valAcc fs
        epochs).consumed.length := by
  have hdiv2 : ∀ e ∈ epochs, args.gradient_accumulation_steps ∣ e.length := by
    intro e he
    have h := List.all_eq_true.mp hdiv e he
    exact Nat.dvd_of_mod_eq_zero (by simpa using h)
  have hInv0 : Inv7 args.gradient_accumulation_steps args.num_steps
      (trainInit (trainArgsAdjusted args) fs) := by
    refine ⟨?_, ?_, rfl, rfl, ?_⟩
    · intro i hi
      exact absurd hi (by simp [trainInit])
    · intro c hc
      exact absurd hc (by simp [trainInit])
    · intro h
      exact absurd h (by simp [trainInit])
  have hFin := runEpochs_inv7
    ⟨trainArgsAdjusted args, model, optimizer, scheduler, valAcc⟩ hg epochs
    (trainInit (trainArgsAdjusted args) fs) hdiv2 rfl hInv0
  obtain ⟨k1, k2, k3, k4, _⟩ := hFin
  exact ⟨rfl, fun st step loss => processBatch_backwards _ st step loss,
    k1, k2, k3, k4⟩

/-- Witness for C7 (amended) on a run with g = 2 and one epoch of two
micro-batches. -/
theorem gradient_accumulation_discipline_witness :
    (1 ≤ cArgs7.gradient_accumulation_steps) ∧
    (([[(2 : Rat), 2]] : List (List Rat)).all
      (fun e => e.length % cArgs7.gradient_accumulation_steps == 0) = true) ∧
    ((train cArgs7 (.plain 3) 4 5 (fun _ => 0) (fun _ => none)
        [[2, 2]]).consumed.flatten ++
      (train cArgs7 (.plain 3) 4 5 (fun _ => 0) (fun _ => none)
        [[2, 2]]).grads =
      (train cArgs7 (.plain 3) 4 5 (fun _ => 0) (fun _ => none)
        [[2, 2]]).backwards) ∧
    (train cArgs7 (.plain 3) 4 5 (fun _ => 0) (fun _ => none)
        [[2, 2]]).global_step =
      (train cArgs7 (.plain 3) 4 5 (fun _ => 0) (fun _ => none)
        [[2, 2]]).consumed.length :=
  ⟨by decide, by decide,
   (gradient_accumulation_discipline cArgs7 (.plain 3) 4 5 (fun _ => 0)
      (fun _ => none) [[2, 2]] (by decide) (by decide)).2.2.2.2.1,
   (gradient_accumulation_discipline cArgs7 (.plain 3) 4 5 (fun _ => 0)
      (fun _ => none) [[2, 2]] (by decide) (by decide)).2.2.2.2.2⟩

/-- C8: during training, valid runs exactly at the optimizer steps whose
global_step passes the train.py:306 guard — equivalently, at the optimizer
steps where global_step is a (necessarily positive) multiple of eval_every
and the rank is -1 or 0, and at no other step; the loop stops only with
global_step a multiple of num_steps, and an optimizer step reaching such a
multiple is the last one (training stops there). -/
theorem periodic_validation_schedule (args : Args) (model : TModel)
    (optimizer : OptSD) (scheduler : SchedSD) (valAcc : Nat → Rat) (fs : FS)
    (epochs : List (List Rat))
    (hg : 1 ≤ args.gradient_accumulation_steps)
    (he : 1 ≤ args.eval_every) (hn : 1 ≤ args.num_steps) :
    (train args model optimizer scheduler valAcc fs epochs).validGS =
      (train args model optimizer scheduler valAcc fs
        epochs).optStepsGS.filter (evalNow args) ∧
    (∀ s ∈ (train args model optimizer scheduler valAcc fs epochs).validGS,
      0 < s ∧ s % args.eval_every = 0 ∧
      (args.local_rank = -1 ∨ args.local_rank = 0)) ∧
    ((train args model optimizer scheduler valAcc fs epochs).stopped = true →
      (train args model optimizer scheduler valAcc fs
        epochs).global_step % args.num_steps = 0) ∧
    (∀ s ∈ (train args model optimizer scheduler valAcc fs
        epochs).optStepsGS, s % args.num_steps = 0 →
      (train args model optimizer scheduler valAcc fs epochs).stopped = true ∧
      s = (train args model optimizer scheduler valAcc fs
        epochs).global_step) := by
  have hInv0 : Inv8 (trainArgsAdjusted args)
      (trainInit (trainArgsAdjusted args) fs) := by
    refine ⟨rfl, ?_, ?_, ?_⟩
    · intro s hs
      exact absurd hs (by simp [trainInit])
    · intro h
      exact absurd h (by simp [trainInit])
    · intro s hs
      exact absurd hs (by simp [trainInit])
  have hFin := runEpochs_inv8
    ⟨trainArgsAdjusted args, model, optimizer, scheduler, valAcc⟩ epochs
    (trainInit (trainArgsAdjusted args) fs) hInv0
  obtain ⟨k1, k2, k3, k4⟩ := hFin
  rw [show train args model optimizer scheduler valAcc fs epochs =
      runEpochs ⟨trainArgsAdjusted args, model, optimizer, scheduler, valAcc⟩
        (trainInit (trainArgsAdjusted args) fs) epochs from rfl]
  refine ⟨k1, ?_, k3, k4⟩
  intro s hs
  rw [k1] at hs
  obtain ⟨hmem, hcond⟩ := List.mem_filter.mp hs
  refine ⟨k2 s hmem, ?_⟩
  have hcond2 := hcond
  simp only [evalNow, trainArgsAdjusted, Bool.and_eq_true, Bool.or_eq_true,
    beq_iff_eq] at hcond2
  exact hcond2

/-- Witness for C8 on a run with eval_every = 1 and num_steps = 2. -/
theorem periodic_validation_schedule_witness :
    (1 ≤ cArgs8.gradient_accumulation_steps) ∧ (1 ≤ cArgs8.eval_every) ∧
    (1 ≤ cArgs8.num_steps) ∧
    (train cArgs8 (.plain 3) 4 5 (fun _ => 0) (fun _ => none)
        [[1, 1, 1]]).validGS =
      (train cArgs8 (.plain 3) 4 5 (fun _ => 0) (fun _ => none)
        [[1, 1, 1]]).optStepsGS.filter (evalNow cArgs8) :=
  ⟨by decide, by decide, by decide,
   (periodic_validation_schedule cArgs8 (.plain 3) 4 5 (fun _ => 0)
      (fun _ => none) [[1, 1, 1]] (by decide) (by decide) (by decide)).1⟩

end AAQT
